import Mathlib

/-!
Verification development for the iterative cell-library tuning driver in
`src/cada0036/scripts/main.py`. The Python program is shallowly embedded:

* JSON attribute values are modelled as rationals (the library description
  declares them numeric); Python `float` arithmetic on costs is modelled by `ℚ`.
* Python exceptions that the program can raise (`KeyError`, `IndexError`,
  `ValueError`, `FileNotFoundError`) are modelled by `Except PyExc`; a Python
  function returning `None` on a handled failure is modelled by `Option`.
* `random.shuffle` is modelled by an oracle function, one call per cell per
  iteration; the predicate `IsShuffleFn` states that the oracle returns a
  permutation of its input, which is what `random.shuffle` guarantees.
* `list(itertools.permutations(xs))` is modelled by `allPermutations xs`
  (the enumeration order differs from itertools, but the program discards the
  selected permutation, so only the count and the in-bounds access matter).
* the cost file's first line is modelled as a `List Char`; `str.strip`,
  `str.split` and substring containment are re-implemented structurally;
  `float(...)` parsing is modelled by a decimal parser (`parseFloat`) covering
  the `[sign] digits [. digits]` forms (exponents and `inf`/`nan` spellings
  are out of scope for the properties considered here).
* the filesystem slot holding the best artifacts is modelled by recording, for
  the best-netlist path and the best-genlib path, the index of the iteration
  whose artifact was last renamed onto it (`none` = still untouched).
* the `SIGALRM` deadline is modelled as firing at the start of an iteration
  (`alarmFires`); the `finally:` block always runs, also when an uncaught
  exception is propagating.
-/

namespace CadOpt

/-- Python exceptions that `main.py` can raise and that are not caught by the
`except TimeoutError` handler in `main`. -/
inductive PyExc
  | keyError
  | indexError
  | valueError
  | fileNotFound
  deriving DecidableEq

instance {ε α : Type} [DecidableEq ε] [DecidableEq α] : DecidableEq (Except ε α) :=
  fun x y =>
  match x, y with
  | .ok a, .ok b =>
    if h : a = b then isTrue (congrArg Except.ok h)
    else isFalse (fun hc => h (Except.ok.inj hc))
  | .ok _, .error _ => isFalse (fun hc => Except.noConfusion hc)
  | .error _, .ok _ => isFalse (fun hc => Except.noConfusion hc)
  | .error e, .error f =>
    if h : e = f then isTrue (congrArg Except.error h)
    else isFalse (fun hc => h (Except.error.inj hc))

/-- One record of the `cells` list of the library JSON: `cell_name`,
`cell_type`, and the remaining fields as an association list (a JSON object
with numeric values, in declaration order). -/
structure Cell where
  cell_name : String
  cell_type : String
  attrs : List (String × ℚ)
  deriving DecidableEq

/-- The library JSON: `information.attributes` plus the `cells` list. -/
structure LibData where
  attributes : List String
  cells : List Cell
  deriving DecidableEq

/-- Source line 37: `num_required_attributes = 7`. -/
def num_required_attributes : ℕ := 7

/-- The attribute names the comprehension on source line 47 ranges over:
`[attr for attr in attributes if attr not in ['cell_name', 'cell_type']]`. -/
def attrNames (attributes : List String) : List String :=
  attributes.filter (fun a => !(a == "cell_name" || a == "cell_type"))

/-- Left-to-right lookup of each named attribute in the cell's JSON object;
`cell[attr]` on a missing key raises `KeyError` (source line 47). -/
def lookupAttrs (cell : Cell) : List String → Except PyExc (List ℚ)
  | [] => .ok []
  | a :: rest =>
    match cell.attrs.lookup a with
    | none => .error .keyError
    | some v =>
      match lookupAttrs cell rest with
      | .error ex => .error ex
      | .ok vs => .ok (v :: vs)

/-- Source line 47: the list `cell_attributes` before padding. -/
def cellAttrValues (attributes : List String) (cell : Cell) : Except PyExc (List ℚ) :=
  lookupAttrs cell (attrNames attributes)

/-- Source lines 48-49: `while len(cell_attributes) < 7: append(1.0)`. -/
def padTo (n : ℕ) (l : List ℚ) : List ℚ :=
  l ++ List.replicate (n - l.length) 1

/-- All ways to insert `x` into a list (helper for `allPermutations`). -/
def insertEverywhere (x : ℚ) : List ℚ → List (List ℚ)
  | [] => [[x]]
  | y :: ys => (x :: y :: ys) :: (insertEverywhere x ys).map (fun l => y :: l)

/-- Source line 52: `list(itertools.permutations(cell_attributes))`.
Structurally recursive so that it evaluates in the kernel; the enumeration
order differs from itertools, which is immaterial because the program never
uses the selected permutation's value. -/
def allPermutations : List ℚ → List (List ℚ)
  | [] => [[]]
  | x :: xs => (allPermutations xs).flatMap (insertEverywhere x)

/-- Source lines 66-83: the closed lookup table from `cell_type` to the
boolean expression written into the GATE line; `none` models the final
`else: continue`. -/
def funcOfType (t : String) : Option String :=
  if t == "and" then some "Y=A*B"
  else if t == "or" then some "Y=A+B"
  else if t == "xor" then some "Y=A*!B+!A*B"
  else if t == "nand" then some "Y=!(A*B)"
  else if t == "nor" then some "Y=!(A+B)"
  else if t == "not" then some "Y=!A"
  else if t == "buf" then some "Y=A"
  else if t == "xnor" then some "Y=!(A^B)"
  else none

/-- One two-line gate record of the emitted genlib file (source lines 86-87),
holding the data interpolated into the GATE line and the PIN line. -/
structure GateRecord where
  gate_name : String
  area : ℚ
  func : String
  input_load : ℚ
  max_load : ℚ
  rise_block_delay : ℚ
  rise_fanout_delay : ℚ
  fall_block_delay : ℚ
  fall_fanout_delay : ℚ
  deriving DecidableEq

/-- The two text lines a record contributes to the file (source lines 86-87).
Numeral rendering of `ℚ` differs from Python float rendering; the properties
below only use the line count and the record's fields. -/
def recordLines (r : GateRecord) : List String :=
  ["GATE " ++ r.gate_name ++ " " ++ toString r.area ++ " " ++ r.func ++ ";",
   "    PIN * NONINV " ++ toString r.input_load ++ " " ++ toString r.max_load ++ " "
     ++ toString r.rise_block_delay ++ " " ++ toString r.rise_fanout_delay ++ " "
     ++ toString r.fall_block_delay ++ " " ++ toString r.fall_fanout_delay]

/-- The ordered candidate parameter tuple of a record, in the assignment order
of source lines 57-63: area, rise-block-delay, fall-block-delay,
rise-fanout-delay, fall-fanout-delay, input-load, max-load. -/
def params (r : GateRecord) : List ℚ :=
  [r.area, r.rise_block_delay, r.fall_block_delay, r.rise_fanout_delay,
   r.fall_fanout_delay, r.input_load, r.max_load]

/-- Source lines 43-87 for one cell: collect and pad the attribute values,
compute the permutation selected by `iteration % len(all_permutations)`
(bound but never used afterwards, exactly as in the source), shuffle, read the
seven positions, and emit the record unless the cell type is unrecognized. -/
def genCell (attributes : List String) (shuffle : List ℚ → List ℚ) (iteration : ℕ)
    (cell : Cell) : Except PyExc (Option GateRecord) :=
  match cellAttrValues attributes cell with
  | .error ex => .error ex
  | .ok vals =>
    let cell_attributes := padTo num_required_attributes vals
    let all_permutations := allPermutations cell_attributes
    match all_permutations[iteration % all_permutations.length]? with
    | none => .error .indexError
    | some _chosen_permutation =>
      let shuffled := shuffle cell_attributes
      match shuffled[0]?, shuffled[1]?, shuffled[2]?, shuffled[3]?, shuffled[4]?,
          shuffled[5]?, shuffled[6]? with
      | some area, some rise_block_delay, some fall_block_delay,
          some rise_fanout_delay, some fall_fanout_delay, some input_load,
          some max_load =>
        match funcOfType cell.cell_type with
        | none => .ok none
        | some function =>
          .ok (some ⟨cell.cell_name, area, function, input_load, max_load,
            rise_block_delay, rise_fanout_delay, fall_block_delay,
            fall_fanout_delay⟩)
      | _, _, _, _, _, _, _ => .error .indexError

/-- The per-cell loop of `generate_random_genlib`; `j` is the index of the
cell, used to address the shuffle oracle (one `random.shuffle` call per cell,
also for cells later skipped by the type dispatch). -/
def genCells (attributes : List String) (σ : ℕ → List ℚ → List ℚ) (iteration : ℕ) :
    ℕ → List Cell → Except PyExc (List GateRecord)
  | _, [] => .ok []
  | j, cell :: rest =>
    match genCell attributes (σ j) iteration cell with
    | .error ex => .error ex
    | .ok none => genCells attributes σ iteration (j + 1) rest
    | .ok (some r) =>
      match genCells attributes σ iteration (j + 1) rest with
      | .error ex => .error ex
      | .ok out => .ok (r :: out)

/-- Source lines 34-89: the Candidate Generator. The returned list is the
sequence of gate records written to `release/genlib/lib.genlib`. -/
def generate_random_genlib (data : LibData) (iteration : ℕ)
    (σ : ℕ → List ℚ → List ℚ) : Except PyExc (List GateRecord) :=
  genCells data.attributes σ iteration 0 data.cells

/-- Variant of `genCell` that, following the words of the specification, skips
the computation of the selected permutation entirely and uses only the
shuffled list. Used to compare against the source-derived `genCell`. -/
def genCellNoPerm (attributes : List String) (shuffle : List ℚ → List ℚ)
    (cell : Cell) : Except PyExc (Option GateRecord) :=
  match cellAttrValues attributes cell with
  | .error ex => .error ex
  | .ok vals =>
    let cell_attributes := padTo num_required_attributes vals
    let shuffled := shuffle cell_attributes
    match shuffled[0]?, shuffled[1]?, shuffled[2]?, shuffled[3]?, shuffled[4]?,
        shuffled[5]?, shuffled[6]? with
    | some area, some rise_block_delay, some fall_block_delay,
        some rise_fanout_delay, some fall_fanout_delay, some input_load,
        some max_load =>
      match funcOfType cell.cell_type with
      | none => .ok none
      | some function =>
        .ok (some ⟨cell.cell_name, area, function, input_load, max_load,
          rise_block_delay, rise_fanout_delay, fall_block_delay,
          fall_fanout_delay⟩)
    | _, _, _, _, _, _, _ => .error .indexError

/-- Per-cell loop of the permutation-free variant. -/
def genCellsNoPerm (attributes : List String) (σ : ℕ → List ℚ → List ℚ) :
    ℕ → List Cell → Except PyExc (List GateRecord)
  | _, [] => .ok []
  | j, cell :: rest =>
    match genCellNoPerm attributes (σ j) cell with
    | .error ex => .error ex
    | .ok none => genCellsNoPerm attributes σ (j + 1) rest
    | .ok (some r) =>
      match genCellsNoPerm attributes σ (j + 1) rest with
      | .error ex => .error ex
      | .ok out => .ok (r :: out)

/-- The Candidate Generator with the permutation-selection step removed;
note that it takes no iteration index. -/
def generate_random_genlib_noperm (data : LibData)
    (σ : ℕ → List ℚ → List ℚ) : Except PyExc (List GateRecord) :=
  genCellsNoPerm data.attributes σ 0 data.cells

/-- Structural re-implementation of Python `str.strip()` on the characters of
a line. -/
def trimChars (l : List Char) : List Char :=
  ((l.dropWhile Char.isWhitespace).reverse.dropWhile Char.isWhitespace).reverse

/-- Structural re-implementation of Python `str.split(sep)` for a one-character
separator (source line 156 splits on the single character of "="). -/
def splitOnChar (c : Char) : List Char → List (List Char)
  | [] => [[]]
  | x :: xs =>
    let rest := splitOnChar c xs
    if x == c then [] :: rest
    else
      match rest with
      | [] => [[x]]
      | r :: rs => (x :: r) :: rs

/-- Substring containment, modelling Python's `pat in line` (source line 155). -/
def containsSub (pat : List Char) : List Char → Bool
  | [] => pat.isEmpty
  | x :: xs => pat.isPrefixOf (x :: xs) || containsSub pat xs

/-- The literal marker of source line 155. -/
def costMarker : List Char := "cost = ".toList

/-- Value of a string of decimal digits; `none` when a non-digit appears. -/
def digitsVal (l : List Char) : Option ℕ :=
  if l.all Char.isDigit then
    some (l.foldl (fun n c => n * 10 + (c.toNat - 48)) 0)
  else none

/-- Unsigned part of the decimal parse: `digits`, `digits.digits`, `digits.`
or `.digits`, with at least one digit overall. -/
def parseUnsigned (s : List Char) (neg : Bool) : Option ℚ :=
  match splitOnChar '.' s with
  | [ip] =>
    if ip.isEmpty then none
    else (digitsVal ip).map (fun n => mkRat (if neg then -(n : ℤ) else (n : ℤ)) 1)
  | [ip, fp] =>
    if ip.isEmpty && fp.isEmpty then none
    else
      match digitsVal ip, digitsVal fp with
      | some a, some b =>
        let num : ℤ := (a : ℤ) * 10 ^ fp.length + (b : ℤ)
        some (mkRat (if neg then -num else num) (10 ^ fp.length))
      | _, _ => none
  | _ => none

/-- Model of Python `float(s)` on an already-stripped string (source line 157):
optional sign followed by a decimal numeral; `none` models the `ValueError`
raised on anything else. Exponent and `inf`/`nan` spellings are not modelled;
none of the verified properties depends on them. -/
def parseFloat (s : List Char) : Option ℚ :=
  match s with
  | '-' :: body => parseUnsigned body true
  | '+' :: body => parseUnsigned body false
  | body => parseUnsigned body false

/-- External-world outcome of one iteration of the search loop: whether the
abc run exits zero (source line 129), whether the output conversion exits zero
(source line 139), whether the cost program exits zero (source line 148), and
the first line of the cost output file, `none` meaning the file is missing
when `open` is attempted (source line 153). -/
structure IterEnv where
  abcOk : Bool
  convertOk : Bool
  costExit0 : Bool
  costFile : Option (List Char)
  deriving DecidableEq

/-- Source lines 144-162, `estimate_cost`: `.ok none` models `return None`
(non-zero exit, or first line without the `cost = ` marker); `.ok (some c)`
models a parsed cost; `.error` models an uncaught exception
(`FileNotFoundError` from `open` on a missing file, `ValueError` from
`float(...)` on an unparseable substring after the first "="). -/
def estimate_cost (e : IterEnv) : Except PyExc (Option ℚ) :=
  if e.costExit0 = false then .ok none
  else
    match e.costFile with
    | none => .error .fileNotFound
    | some raw =>
      let output_line := trimChars raw
      if containsSub costMarker output_line then
        match (splitOnChar '=' output_line)[1]? with
        | none => .error .indexError
        | some piece =>
          match parseFloat (trimChars piece) with
          | some cost => .ok (some cost)
          | none => .error .valueError
      else .ok none

/-- The best-result slot of `main` (source lines 180-182 and 210-214): the
best cost (`none` models the initial `float('inf')`), and for each of the two
best-artifact paths (`args.output` and `best_genlib.genlib`) the index of the
iteration whose artifact was last renamed onto it (`none` = never written,
the path still holds whatever the caller had there). -/
structure BestSlot where
  cost : Option ℚ
  netlistIter : Option ℕ
  genlibIter : Option ℕ
  deriving DecidableEq

/-- The slot as initialized on source lines 180-182. -/
def initSlot : BestSlot := ⟨none, none, none⟩

/-- Source line 210's comparison `current_cost < best_cost`, where `none`
stands for `float('inf')`. -/
def ltInf (c : ℚ) (b : Option ℚ) : Bool :=
  match b with
  | none => true
  | some q => decide (c < q)

/-- Order on best costs, `none` being the top element `float('inf')`. -/
def leInf : Option ℚ → Option ℚ → Prop
  | _, none => True
  | none, some _ => False
  | some x, some y => x ≤ y

/-- Source lines 194-214 after the genlib generation succeeded: skip on abc
failure, skip on conversion failure, then evaluate the cost; `None` skips the
iteration, an exception propagates, and a strictly better cost updates the
best slot (cost plus both renames, source lines 211-213). -/
def iterStepPost (e : IterEnv) (i : ℕ) (slot : BestSlot) : Except PyExc BestSlot :=
  if e.abcOk = false then .ok slot
  else if e.convertOk = false then .ok slot
  else
    match estimate_cost e with
    | .error ex => .error ex
    | .ok none => .ok slot
    | .ok (some current_cost) =>
      if ltInf current_cost slot.cost then .ok ⟨some current_cost, some i, some i⟩
      else .ok slot

/-- One full iteration of the loop body (source lines 190-214): generate the
candidate genlib (whose own exceptions would propagate), then run the rest. -/
def iterStep (d : LibData) (σi : ℕ → List ℚ → List ℚ) (i : ℕ) (e : IterEnv)
    (slot : BestSlot) : Except PyExc BestSlot :=
  match generate_random_genlib d i σi with
  | .error ex => .error ex
  | .ok _ => iterStepPost e i slot

/-- How the `for` loop of source line 189 ended. -/
inductive LoopEnd
  | done
  | timedOut
  | crashed (ex : PyExc)
  deriving DecidableEq

/-- Source line 179: `num_iterations = 3000`. -/
def num_iterations : ℕ := 3000

/-- Whether the `SIGALRM` set on source line 171 interrupts the run at the
start of iteration `i`; `alarm = some k` means the budget expires at
iteration `k`. -/
def alarmFires (alarm : Option ℕ) (i : ℕ) : Bool :=
  match alarm with
  | none => false
  | some k => decide (k ≤ i)

/-- The iteration loop of source lines 189-214 over the per-iteration
external-world outcomes `envs`, starting at iteration index `i` with the
current best slot: the alarm ends the loop with `TimeoutError`, an uncaught
exception ends it as `crashed`, otherwise the slot evolves per `iterStep`. -/
def runLoop (d : LibData) (σ : ℕ → ℕ → List ℚ → List ℚ) :
    List IterEnv → ℕ → Option ℕ → BestSlot → BestSlot × LoopEnd
  | [], _, _, slot => (slot, .done)
  | e :: rest, i, alarm, slot =>
    if alarmFires alarm i then (slot, .timedOut)
    else
      match iterStep d (σ i) i e slot with
      | .error ex => (slot, .crashed ex)
      | .ok slot2 => runLoop d σ rest (i + 1) alarm slot2

/-- How a whole run of `main` ended. -/
inductive EndKind
  | normal
  | timeoutHit
  | setupFailed
  | crashed (ex : PyExc)
  deriving DecidableEq

/-- Observable outcome of a run of `main`: the final best slot, how the run
ended, whether the best-cost and best-path lines of source lines 216-217 were
printed, whether the `TimeoutError` message of line 220 was printed, and
whether the elapsed-time line of line 225 (inside `finally:`) was printed. -/
structure RunResult where
  slot : BestSlot
  endKind : EndKind
  bestReported : Bool
  timeoutMsgReported : Bool
  elapsedReported : Bool
  deriving DecidableEq

/-- Source lines 165-226, `main`: `setupOk` is whether the initial netlist
conversion (line 184) succeeded — on failure `main` returns before the loop;
`envs` lists the external-world outcomes the iterations would observe (the
loop of line 189 consumes at most `num_iterations` of them); `alarm` is the
deadline. The final prints of lines 216-217 run only when the loop finishes
normally inside the `try:`; the `finally:` line always runs. -/
def mainRun (setupOk : Bool) (d : LibData) (σ : ℕ → ℕ → List ℚ → List ℚ)
    (envs : List IterEnv) (alarm : Option ℕ) : RunResult :=
  if setupOk = false then ⟨initSlot, .setupFailed, false, false, true⟩
  else
    match runLoop d σ (envs.take num_iterations) 0 alarm initSlot with
    | (slot, .done) => ⟨slot, .normal, true, false, true⟩
    | (slot, .timedOut) => ⟨slot, .timeoutHit, false, true, true⟩
    | (slot, .crashed ex) => ⟨slot, .crashed ex, false, false, true⟩

/-- A shuffle oracle for one `random.shuffle` call returns a rearrangement of
its input list. -/
def IsShuffleFn (f : List ℚ → List ℚ) : Prop := ∀ l, (f l).Perm l

/-- Shuffle oracle addressed per cell index within one iteration. -/
def IsShuffle (σ : ℕ → List ℚ → List ℚ) : Prop := ∀ j, IsShuffleFn (σ j)

/-- Shuffle oracle addressed per iteration and per cell index. -/
def IsShuffleRun (σ : ℕ → ℕ → List ℚ → List ℚ) : Prop := ∀ i, IsShuffle (σ i)

/-- The library-description invariant of the data model: every cell carries a
value for every declared attribute (cell, in this JSON shape, maps each name
of `information.attributes` other than `cell_name`/`cell_type` to a number). -/
def WellFormedCell (attributes : List String) (cell : Cell) : Prop :=
  ∀ a ∈ attrNames attributes, (cell.attrs.lookup a).isSome = true

/-- Well-formedness of the whole library description. -/
def WellFormed (d : LibData) : Prop :=
  ∀ cell ∈ d.cells, WellFormedCell d.attributes cell

/-- The iteration's external outcome makes the loop body skip the iteration
through one of the three handled failure paths (abc non-zero exit, conversion
non-zero exit, or `estimate_cost` returning `None`). -/
def envSkips (e : IterEnv) : Prop :=
  e.abcOk = false ∨ e.convertOk = false ∨ estimate_cost e = .ok none

/-- The iteration's external outcome makes the loop body fail to produce a
cost for the iteration, through any of the failure paths: a handled skip
(`envSkips`), or a cost-evaluation failure that raises (missing output file,
float-parse failure). This is the full set of per-iteration failures of
mapping, conversion, or evaluation. -/
def envFails (e : IterEnv) : Prop :=
  envSkips e ∨ ∃ ex, estimate_cost e = .error ex

instance (attributes : List String) (cell : Cell) :
    Decidable (WellFormedCell attributes cell) := by
  unfold WellFormedCell; infer_instance

instance (d : LibData) : Decidable (WellFormed d) := by
  unfold WellFormed; infer_instance

instance (e : IterEnv) : Decidable (envSkips e) := by
  unfold envSkips; infer_instance

/-- Example cell with two declared numeric attributes. -/
def cellEx1 : Cell := ⟨"G1", "and", [("area", 2), ("delay", 3)]⟩

/-- Example library description with one `and` cell. -/
def dEx : LibData := ⟨["area", "delay"], [cellEx1]⟩

/-- Example cell with eight declared numeric attributes (more than seven). -/
def cellEx8 : Cell :=
  ⟨"G8", "or", [("a1", 1), ("a2", 2), ("a3", 3), ("a4", 4), ("a5", 5),
    ("a6", 6), ("a7", 7), ("a8", 8)]⟩

/-- Identity shuffle oracle (cell-indexed). -/
def sigmaId : ℕ → List ℚ → List ℚ := fun _ l => l

/-- Reversal shuffle oracle (cell-indexed). -/
def sigmaRev : ℕ → List ℚ → List ℚ := fun _ l => l.reverse

/-- Identity shuffle oracle (iteration- and cell-indexed). -/
def sigmaIdRun : ℕ → ℕ → List ℚ → List ℚ := fun _ _ l => l

/-- Iteration outcome where everything succeeds and the cost file reads
`cost = 12`. -/
def envGood : IterEnv := ⟨true, true, true, some "cost = 12".toList⟩

/-- Iteration outcome where the cost program exits non-zero. -/
def envExitBad : IterEnv := ⟨true, true, false, none⟩

/-- Iteration outcome where the cost file's line has the marker but an
unparseable number. -/
def envParseBad : IterEnv := ⟨true, true, true, some "cost = abc".toList⟩

/-- Iteration outcome where the cost program exits zero but writes no file. -/
def envMissingFile : IterEnv := ⟨true, true, true, none⟩

/-- Iteration outcome where the abc invocation fails. -/
def envAbcFail : IterEnv := ⟨false, true, true, none⟩

/-- Iteration outcome where the cost file's line lacks the marker. -/
def envNoMarker : IterEnv := ⟨true, true, true, some "hello".toList⟩

theorem insertEverywhere_ne_nil (x : ℚ) (l : List ℚ) : insertEverywhere x l ≠ [] := by
  cases l <;> simp [insertEverywhere]

theorem allPermutations_ne_nil (l : List ℚ) : allPermutations l ≠ [] := by
  induction l with
  | nil => simp [allPermutations]
  | cons x xs ih =>
    simp only [allPermutations]
    cases hp : allPermutations xs with
    | nil => exact absurd hp ih
    | cons p ps =>
      simp only [List.flatMap_cons, ne_eq, List.append_eq_nil]
      exact fun h => insertEverywhere_ne_nil x p h.1

theorem getPerm_some (l : List ℚ) (i : ℕ) :
    ∃ p, (allPermutations l)[i % (allPermutations l).length]? = some p := by
  have hpos : 0 < (allPermutations l).length :=
    List.length_pos.mpr (allPermutations_ne_nil l)
  exact ⟨_, List.getElem?_eq_getElem (Nat.mod_lt _ hpos)⟩

theorem genCell_eq_noperm (attributes : List String) (f : List ℚ → List ℚ)
    (iteration : ℕ) (cell : Cell) :
    genCell attributes f iteration cell = genCellNoPerm attributes f cell := by
  unfold genCell genCellNoPerm
  cases hv : cellAttrValues attributes cell with
  | error ex => rfl
  | ok vals =>
    obtain ⟨p, hp⟩ := getPerm_some (padTo num_required_attributes vals) iteration
    simp only [hp]

theorem genCells_eq_noperm (attributes : List String) (σ : ℕ → List ℚ → List ℚ)
    (iteration : ℕ) (j : ℕ) (cells : List Cell) :
    genCells attributes σ iteration j cells = genCellsNoPerm attributes σ j cells := by
  induction cells generalizing j with
  | nil => rfl
  | cons cell rest ih =>
    simp only [genCells, genCellsNoPerm, genCell_eq_noperm, ih]

theorem generate_eq_noperm (data : LibData) (iteration : ℕ)
    (σ : ℕ → List ℚ → List ℚ) :
    generate_random_genlib data iteration σ = generate_random_genlib_noperm data σ :=
  genCells_eq_noperm data.attributes σ iteration 0 data.cells

theorem lookupAttrs_ok (cell : Cell) (names : List String)
    (h : ∀ a ∈ names, (cell.attrs.lookup a).isSome = true) :
    ∃ vs, lookupAttrs cell names = .ok vs := by
  induction names with
  | nil => exact ⟨[], rfl⟩
  | cons a rest ih =>
    obtain ⟨v, hv⟩ := Option.isSome_iff_exists.mp (h a (by simp))
    obtain ⟨vs, hvs⟩ := ih (fun b hb => h b (by simp [hb]))
    exact ⟨v :: vs, by simp [lookupAttrs, hv, hvs]⟩

theorem le_length_padTo (n : ℕ) (l : List ℚ) : n ≤ (padTo n l).length := by
  simp [padTo]
  omega

theorem exists_seven_cons : ∀ (l : List ℚ), 7 ≤ l.length →
    ∃ a b c d e f g t, l = a :: b :: c :: d :: e :: f :: g :: t
  | a :: b :: c :: d :: e :: f :: g :: t, _ => ⟨a, b, c, d, e, f, g, t, rfl⟩
  | [], h => absurd h (by decide)
  | [_], h => absurd h (by simp at h)
  | [_, _], h => absurd h (by simp at h)
  | [_, _, _], h => absurd h (by simp at h)
  | [_, _, _, _], h => absurd h (by simp at h)
  | [_, _, _, _, _], h => absurd h (by simp at h)
  | [_, _, _, _, _, _], h => absurd h (by simp at h)

theorem genCellNoPerm_eval (attributes : List String) (f : List ℚ → List ℚ)
    (cell : Cell) (vals : List ℚ) (a b c d e g k : ℚ) (t : List ℚ)
    (hv : cellAttrValues attributes cell = .ok vals)
    (hshuf : f (padTo num_required_attributes vals) = a :: b :: c :: d :: e :: g :: k :: t) :
    genCellNoPerm attributes f cell =
      match funcOfType cell.cell_type with
      | none => .ok none
      | some fn => .ok (some ⟨cell.cell_name, a, fn, g, k, b, d, c, e⟩) := by
  unfold genCellNoPerm
  simp only [hv, hshuf, List.getElem?_cons_zero, List.getElem?_cons_succ]

theorem genCellNoPerm_ok_none (attributes : List String) (f : List ℚ → List ℚ)
    (cell : Cell) (h : genCellNoPerm attributes f cell = .ok none) :
    funcOfType cell.cell_type = none := by
  simp only [genCellNoPerm] at h
  split at h
  · simp at h
  · split at h
    · split at h <;> simp_all
    · simp at h

theorem genCellNoPerm_ok_some (attributes : List String) (f : List ℚ → List ℚ)
    (cell : Cell) (r : GateRecord)
    (h : genCellNoPerm attributes f cell = .ok (some r)) :
    r.gate_name = cell.cell_name ∧ funcOfType cell.cell_type = some r.func := by
  simp only [genCellNoPerm] at h
  split at h
  · simp at h
  · split at h
    · split at h
      · simp at h
      · simp only [Except.ok.injEq, Option.some.injEq] at h
        subst h
        simp_all
    · simp at h

theorem genCellNoPerm_ok_of_wf (attributes : List String) (f : List ℚ → List ℚ)
    (cell : Cell) (hwf : WellFormedCell attributes cell) (hf : IsShuffleFn f) :
    ∃ ro, genCellNoPerm attributes f cell = .ok ro := by
  obtain ⟨vals, hv⟩ := lookupAttrs_ok cell (attrNames attributes) hwf
  have hlen : 7 ≤ (f (padTo num_required_attributes vals)).length := by
    rw [(hf (padTo num_required_attributes vals)).length_eq]
    exact le_length_padTo _ _
  obtain ⟨a, b, c, d, e, g, k, t, hshuf⟩ := exists_seven_cons _ hlen
  rw [genCellNoPerm_eval attributes f cell vals a b c d e g k t hv hshuf]
  cases funcOfType cell.cell_type <;> exact ⟨_, rfl⟩

theorem genCellsNoPerm_ok_of_wf (attributes : List String) (σ : ℕ → List ℚ → List ℚ)
    (hσ : IsShuffle σ) :
    ∀ (j : ℕ) (cells : List Cell),
      (∀ cell ∈ cells, WellFormedCell attributes cell) →
      ∃ out, genCellsNoPerm attributes σ j cells = .ok out := by
  intro j cells
  induction cells generalizing j with
  | nil => exact fun _ => ⟨[], rfl⟩
  | cons cell rest ih =>
    intro hwf
    obtain ⟨ro, hro⟩ := genCellNoPerm_ok_of_wf attributes (σ j) cell
      (hwf cell (by simp)) (hσ j)
    obtain ⟨out, hout⟩ := ih (j + 1) (fun c hc => hwf c (by simp [hc]))
    cases ro with
    | none => exact ⟨out, by simp [genCellsNoPerm, hro, hout]⟩
    | some r => exact ⟨r :: out, by simp [genCellsNoPerm, hro, hout]⟩

theorem genCellsNoPerm_spec (attributes : List String) (σ : ℕ → List ℚ → List ℚ) :
    ∀ (cells : List Cell) (j : ℕ) (out : List GateRecord),
      genCellsNoPerm attributes σ j cells = .ok out →
      out.length = (cells.filter (fun c => (funcOfType c.cell_type).isSome)).length ∧
      ∀ r ∈ out, ∃ cell ∈ cells, r.gate_name = cell.cell_name ∧
        (funcOfType cell.cell_type).isSome = true := by
  intro cells
  induction cells with
  | nil =>
    intro j out h
    simp only [genCellsNoPerm, Except.ok.injEq] at h
    subst h
    simp
  | cons cell rest ih =>
    intro j out h
    simp only [genCellsNoPerm] at h
    cases hg : genCellNoPerm attributes (σ j) cell with
    | error ex => rw [hg] at h; simp at h
    | ok ro =>
      rw [hg] at h
      cases ro with
      | none =>
        have hnone := genCellNoPerm_ok_none attributes (σ j) cell hg
        obtain ⟨hlen, hmem⟩ := ih (j + 1) out h
        constructor
        · simpa [List.filter_cons, hnone] using hlen
        · intro r hr
          obtain ⟨c, hc, hcprop⟩ := hmem r hr
          exact ⟨c, by simp [hc], hcprop⟩
      | some r =>
        cases hrec : genCellsNoPerm attributes σ (j + 1) rest with
        | error ex => rw [hrec] at h; simp at h
        | ok out2 =>
          rw [hrec] at h
          simp only [Except.ok.injEq] at h
          subst h
          obtain ⟨hname, hfn⟩ := genCellNoPerm_ok_some attributes (σ j) cell r hg
          obtain ⟨hlen, hmem⟩ := ih (j + 1) out2 hrec
          constructor
          · simp [List.filter_cons, hfn, hlen]
          · intro x hx
            rcases List.mem_cons.mp hx with hx | hx
            · subst hx
              exact ⟨cell, by simp, hname, by simp [hfn]⟩
            · obtain ⟨c, hc, hcprop⟩ := hmem x hx
              exact ⟨c, by simp [hc], hcprop⟩

theorem leInf_refl (a : Option ℚ) : leInf a a := by
  cases a <;> simp [leInf]

theorem leInf_trans (a b c : Option ℚ) (hab : leInf a b) (hbc : leInf b c) :
    leInf a c := by
  cases a <;> cases b <;> cases c <;> simp_all [leInf]
  exact le_trans hab hbc

theorem leInf_of_ltInf (c : ℚ) (b : Option ℚ) (h : ltInf c b = true) :
    leInf (some c) b := by
  cases b with
  | none => simp [leInf]
  | some q =>
    simp only [ltInf, decide_eq_true_eq] at h
    exact le_of_lt h

theorem iterStepPost_spec (e : IterEnv) (i : ℕ) (slot slot2 : BestSlot)
    (h : iterStepPost e i slot = .ok slot2) :
    leInf slot2.cost slot.cost
    ∧ (slot2 ≠ slot → ∃ c, estimate_cost e = .ok (some c) ∧ ltInf c slot.cost = true
        ∧ slot2 = ⟨some c, some i, some i⟩)
    ∧ (∀ c, estimate_cost e = .ok (some c) → ltInf c slot.cost = false → slot2 = slot) := by
  unfold iterStepPost at h
  split at h
  · simp only [Except.ok.injEq] at h
    subst h
    exact ⟨leInf_refl _, fun hne => absurd rfl hne, fun _ _ _ => rfl⟩
  · split at h
    · simp only [Except.ok.injEq] at h
      subst h
      exact ⟨leInf_refl _, fun hne => absurd rfl hne, fun _ _ _ => rfl⟩
    · cases hest : estimate_cost e with
      | error ex => rw [hest] at h; simp at h
      | ok co =>
        rw [hest] at h
        cases co with
        | none =>
          simp only [Except.ok.injEq] at h
          subst h
          exact ⟨leInf_refl _, fun hne => absurd rfl hne, fun _ _ _ => rfl⟩
        | some c =>
          by_cases hlt : ltInf c slot.cost = true
          · simp only [hlt, if_true, Except.ok.injEq] at h
            subst h
            refine ⟨leInf_of_ltInf c slot.cost hlt, fun _ => ⟨c, rfl, hlt, rfl⟩, ?_⟩
            intro c2 hc2 hcf
            simp only [Except.ok.injEq, Option.some.injEq] at hc2
            subst hc2
            rw [hlt] at hcf
            exact absurd hcf (by simp)
          · simp only [Bool.not_eq_true] at hlt
            simp only [hlt, Bool.false_eq_true, if_false, Except.ok.injEq] at h
            subst h
            exact ⟨leInf_refl _, fun hne => absurd rfl hne, fun _ _ _ => rfl⟩

theorem iterStep_spec (d : LibData) (σi : ℕ → List ℚ → List ℚ) (i : ℕ)
    (e : IterEnv) (slot slot2 : BestSlot) (h : iterStep d σi i e slot = .ok slot2) :
    leInf slot2.cost slot.cost
    ∧ (slot2 ≠ slot → ∃ c, estimate_cost e = .ok (some c) ∧ ltInf c slot.cost = true
        ∧ slot2 = ⟨some c, some i, some i⟩)
    ∧ (∀ c, estimate_cost e = .ok (some c) → ltInf c slot.cost = false → slot2 = slot) := by
  unfold iterStep at h
  cases hg : generate_random_genlib d i σi with
  | error ex => rw [hg] at h; simp at h
  | ok out =>
    rw [hg] at h
    exact iterStepPost_spec e i slot slot2 h

theorem runLoop_le (d : LibData) (σ : ℕ → ℕ → List ℚ → List ℚ) :
    ∀ (envs : List IterEnv) (i : ℕ) (alarm : Option ℕ) (slot : BestSlot),
      leInf (runLoop d σ envs i alarm slot).1.cost slot.cost := by
  intro envs
  induction envs with
  | nil => exact fun i alarm slot => leInf_refl _
  | cons e rest ih =>
    intro i alarm slot
    simp only [runLoop]
    by_cases hal : alarmFires alarm i = true
    · simp [hal, leInf_refl]
    · simp only [Bool.not_eq_true] at hal
      simp only [hal, Bool.false_eq_true, if_false]
      cases hstep : iterStep d (σ i) i e slot with
      | error ex => exact leInf_refl _
      | ok slot2 =>
        exact leInf_trans _ _ _ (ih (i + 1) alarm slot2)
          (iterStep_spec d (σ i) i e slot slot2 hstep).1

theorem generate_ok_of_wf (d : LibData) (i : ℕ) (σi : ℕ → List ℚ → List ℚ)
    (hwf : WellFormed d) (hσ : IsShuffle σi) :
    ∃ out, generate_random_genlib d i σi = .ok out := by
  rw [generate_eq_noperm]
  exact genCellsNoPerm_ok_of_wf d.attributes σi hσ 0 d.cells hwf

theorem iterStepPost_skip (e : IterEnv) (i : ℕ) (slot : BestSlot) (h : envSkips e) :
    iterStepPost e i slot = .ok slot := by
  unfold iterStepPost
  rcases h with h | h | h
  · simp [h]
  · cases habc : e.abcOk <;> simp [h, habc]
  · cases habc : e.abcOk <;> cases hconv : e.convertOk <;> simp [h, habc, hconv]

theorem iterStep_skip (d : LibData) (σi : ℕ → List ℚ → List ℚ) (i : ℕ)
    (e : IterEnv) (slot : BestSlot) (hwf : WellFormed d) (hσ : IsShuffle σi)
    (h : envSkips e) : iterStep d σi i e slot = .ok slot := by
  obtain ⟨out, hout⟩ := generate_ok_of_wf d i σi hwf hσ
  unfold iterStep
  rw [hout]
  exact iterStepPost_skip e i slot h

theorem runLoop_all_skip (d : LibData) (σ : ℕ → ℕ → List ℚ → List ℚ)
    (hwf : WellFormed d) (hσ : IsShuffleRun σ) :
    ∀ (envs : List IterEnv) (i : ℕ) (slot : BestSlot),
      (∀ e ∈ envs, envSkips e) →
      runLoop d σ envs i none slot = (slot, .done) := by
  intro envs
  induction envs with
  | nil => exact fun i slot _ => rfl
  | cons e rest ih =>
    intro i slot hall
    simp only [runLoop, alarmFires, Bool.false_eq_true, if_false]
    rw [iterStep_skip d (σ i) i e slot hwf (hσ i) (hall e (by simp))]
    exact ih (i + 1) slot (fun x hx => hall x (by simp [hx]))

theorem mainRun_report (setupOk : Bool) (d : LibData)
    (σ : ℕ → ℕ → List ℚ → List ℚ) (envs : List IterEnv) (alarm : Option ℕ) :
    (mainRun setupOk d σ envs alarm).elapsedReported = true
    ∧ ((mainRun setupOk d σ envs alarm).bestReported = true
        ↔ (mainRun setupOk d σ envs alarm).endKind = .normal) := by
  unfold mainRun
  cases setupOk with
  | false => simp
  | true =>
    simp only [Bool.true_eq_false, if_false]
    rcases hres : runLoop d σ (envs.take num_iterations) 0 alarm initSlot with ⟨slot, ed⟩
    cases ed <;> simp

theorem runLoop_cons_fire (d : LibData) (σ : ℕ → ℕ → List ℚ → List ℚ)
    (e : IterEnv) (rest : List IterEnv) (i : ℕ) (alarm : Option ℕ) (slot : BestSlot)
    (hal : alarmFires alarm i = true) :
    runLoop d σ (e :: rest) i alarm slot = (slot, .timedOut) := by
  simp only [runLoop, hal, if_true]

theorem runLoop_cons_err (d : LibData) (σ : ℕ → ℕ → List ℚ → List ℚ)
    (e : IterEnv) (rest : List IterEnv) (i : ℕ) (alarm : Option ℕ) (slot : BestSlot)
    (ex : PyExc) (hal : alarmFires alarm i = false)
    (hstep : iterStep d (σ i) i e slot = .error ex) :
    runLoop d σ (e :: rest) i alarm slot = (slot, .crashed ex) := by
  simp only [runLoop, hal, Bool.false_eq_true, if_false, hstep]

theorem runLoop_cons_ok (d : LibData) (σ : ℕ → ℕ → List ℚ → List ℚ)
    (e : IterEnv) (rest : List IterEnv) (i : ℕ) (alarm : Option ℕ) (slot slot2 : BestSlot)
    (hal : alarmFires alarm i = false)
    (hstep : iterStep d (σ i) i e slot = .ok slot2) :
    runLoop d σ (e :: rest) i alarm slot = runLoop d σ rest (i + 1) alarm slot2 := by
  simp only [runLoop, hal, Bool.false_eq_true, if_false, hstep]

theorem mainRun_of_crashed (d : LibData) (σ : ℕ → ℕ → List ℚ → List ℚ)
    (envs : List IterEnv) (alarm : Option ℕ) (slot : BestSlot) (ex : PyExc)
    (h : runLoop d σ (envs.take num_iterations) 0 alarm initSlot = (slot, .crashed ex)) :
    mainRun true d σ envs alarm = ⟨slot, .crashed ex, false, false, true⟩ := by
  simp only [mainRun, Bool.true_eq_false, if_false, h]

theorem mainRun_of_done (d : LibData) (σ : ℕ → ℕ → List ℚ → List ℚ)
    (envs : List IterEnv) (alarm : Option ℕ) (slot : BestSlot)
    (h : runLoop d σ (envs.take num_iterations) 0 alarm initSlot = (slot, .done)) :
    mainRun true d σ envs alarm = ⟨slot, .normal, true, false, true⟩ := by
  simp only [mainRun, Bool.true_eq_false, if_false, h]

theorem iterStepPost_fails (e : IterEnv) (i : ℕ) (slot : BestSlot) (h : envFails e) :
    iterStepPost e i slot = .ok slot ∨ ∃ ex, iterStepPost e i slot = .error ex := by
  rcases h with h | ⟨ex, hex⟩
  · exact Or.inl (iterStepPost_skip e i slot h)
  · unfold iterStepPost
    cases habc : e.abcOk with
    | false => exact Or.inl (by simp)
    | true =>
      cases hconv : e.convertOk with
      | false => exact Or.inl (by simp)
      | true => exact Or.inr ⟨ex, by simp [hex]⟩

theorem runLoop_all_fail (d : LibData) (σ : ℕ → ℕ → List ℚ → List ℚ)
    (hwf : WellFormed d) (hσ : IsShuffleRun σ) :
    ∀ (envs : List IterEnv) (i : ℕ) (alarm : Option ℕ) (slot : BestSlot),
      (∀ e ∈ envs, envFails e) →
      (runLoop d σ envs i alarm slot).1 = slot := by
  intro envs
  induction envs with
  | nil => intro i alarm slot _; rfl
  | cons e rest ih =>
    intro i alarm slot hall
    by_cases hal : alarmFires alarm i = true
    · rw [runLoop_cons_fire d σ e rest i alarm slot hal]
    · simp only [Bool.not_eq_true] at hal
      obtain ⟨g, hg⟩ := generate_ok_of_wf d i (σ i) hwf (hσ i)
      have hstep_eq : iterStep d (σ i) i e slot = iterStepPost e i slot := by
        unfold iterStep
        rw [hg]
      rcases iterStepPost_fails e i slot (hall e (by simp)) with hok | ⟨ex, herr⟩
      · rw [runLoop_cons_ok d σ e rest i alarm slot slot hal (hstep_eq.trans hok)]
        exact ih (i + 1) alarm slot (fun x hx => hall x (by simp [hx]))
      · rw [runLoop_cons_err d σ e rest i alarm slot ex hal (hstep_eq.trans herr)]

theorem mainRun_slot (d : LibData) (σ : ℕ → ℕ → List ℚ → List ℚ)
    (envs : List IterEnv) (alarm : Option ℕ) :
    (mainRun true d σ envs alarm).slot =
      (runLoop d σ (envs.take num_iterations) 0 alarm initSlot).1 := by
  unfold mainRun
  simp only [Bool.true_eq_false, if_false]
  rcases hres : runLoop d σ (envs.take num_iterations) 0 alarm initSlot with ⟨slot, ed⟩
  cases ed <;> simp

theorem generate_dEx_id :
    generate_random_genlib dEx 0 (sigmaIdRun 0) =
      .ok [⟨"G1", 2, "Y=A*B", 1, 1, 3, 1, 1, 1⟩] := by
  rw [generate_eq_noperm]
  decide

theorem iterStep_envGood :
    iterStep dEx (sigmaIdRun 0) 0 envGood initSlot = .ok ⟨some 12, some 0, some 0⟩ := by
  unfold iterStep
  rw [generate_dEx_id]
  decide

theorem iterStep_envParseBad :
    iterStep dEx (sigmaIdRun 0) 0 envParseBad initSlot = .error .valueError := by
  unfold iterStep
  rw [generate_dEx_id]
  decide

theorem mainRun_envParseBad :
    mainRun true dEx sigmaIdRun [envParseBad] none =
      ⟨initSlot, .crashed .valueError, false, false, true⟩ := by
  apply mainRun_of_crashed
  have htake : List.take num_iterations [envParseBad] = [envParseBad] := by decide
  rw [htake]
  exact runLoop_cons_err dEx sigmaIdRun envParseBad [] 0 none initSlot .valueError
    rfl iterStep_envParseBad

/-- C1: throughout any run the best-result slot's cost is monotonically
non-increasing. It is initialized to positive infinity (modelled by `none`);
any stretch of the loop only lowers or keeps the recorded best cost; a loop
iteration that completes normally replaces the slot only when its successfully
evaluated cost is strictly below the current best, and on replacement the best
cost, the best-netlist file and the best-genlib file are all set together to
this iteration's artifacts; a tying or worse cost leaves the slot unchanged. -/
theorem spec_c1 :
    initSlot.cost = none
    ∧ (∀ (d : LibData) (σ : ℕ → ℕ → List ℚ → List ℚ) (envs : List IterEnv)
        (i : ℕ) (alarm : Option ℕ) (slot : BestSlot),
        leInf (runLoop d σ envs i alarm slot).1.cost slot.cost)
    ∧ (∀ (d : LibData) (σi : ℕ → List ℚ → List ℚ) (i : ℕ) (e : IterEnv)
        (slot slot2 : BestSlot), iterStep d σi i e slot = .ok slot2 →
        leInf slot2.cost slot.cost
        ∧ (slot2 ≠ slot → ∃ c, estimate_cost e = .ok (some c)
            ∧ ltInf c slot.cost = true ∧ slot2 = ⟨some c, some i, some i⟩)
        ∧ (∀ c, estimate_cost e = .ok (some c) → ltInf c slot.cost = false →
            slot2 = slot)) :=
  ⟨rfl, runLoop_le, iterStep_spec⟩

/-- Witness for C1: the replacement rule applied to a concrete improving
iteration (cost 12 against the initial infinite best). -/
theorem spec_c1_witness :
    leInf (BestSlot.mk (some 12) (some 0) (some 0)).cost initSlot.cost
    ∧ (BestSlot.mk (some 12) (some 0) (some 0) ≠ initSlot →
        ∃ c, estimate_cost envGood = .ok (some c) ∧ ltInf c initSlot.cost = true
          ∧ BestSlot.mk (some 12) (some 0) (some 0) = ⟨some c, some 0, some 0⟩)
    ∧ (∀ c, estimate_cost envGood = .ok (some c) → ltInf c initSlot.cost = false →
        BestSlot.mk (some 12) (some 0) (some 0) = initSlot) :=
  spec_c1.2.2 dEx (sigmaIdRun 0) 0 envGood initSlot ⟨some 12, some 0, some 0⟩
    iterStep_envGood

/-- C2 counterexample: a run that ends by deadline expiry (alarm at iteration
0) terminates in the timeout state with `bestReported = false`: the best cost
and best artifact paths of source lines 216-217 are not printed, refuting the
claim that termination always reports them. -/
theorem spec_c2_cex :
    (mainRun true dEx sigmaIdRun [envGood] (some 0)).endKind = .timeoutHit
    ∧ (mainRun true dEx sigmaIdRun [envGood] (some 0)).bestReported = false := by
  decide

/-- C2 amended: at termination the elapsed wall-clock time is always reported
(the `finally:` block), but the best cost and the best artifact paths are
reported exactly when the run ends normally by exhausting the iteration count;
on deadline expiry, on setup failure, and on an uncaught exception they are
not reported. -/
theorem spec_c2 (setupOk : Bool) (d : LibData) (σ : ℕ → ℕ → List ℚ → List ℚ)
    (envs : List IterEnv) (alarm : Option ℕ) :
    (mainRun setupOk d σ envs alarm).elapsedReported = true
    ∧ ((mainRun setupOk d σ envs alarm).bestReported = true
        ↔ (mainRun setupOk d σ envs alarm).endKind = .normal) :=
  mainRun_report setupOk d σ envs alarm

/-- C3: on a well-formed library description (each cell has a value for every
declared attribute, the data-model invariant) the Candidate Generator never
fails for any iteration index: generation returns a result, every cell's
attribute collection succeeds (fewer than seven values are padded, not
failed), and a cell with an unrecognized type is dropped (`.ok none`) rather
than raising an error. -/
theorem spec_c3 (d : LibData) (iteration : ℕ) (σ : ℕ → List ℚ → List ℚ)
    (hwf : WellFormed d) (hσ : IsShuffle σ) :
    (∃ out, generate_random_genlib d iteration σ = .ok out)
    ∧ (∀ cell ∈ d.cells, ∃ vals, cellAttrValues d.attributes cell = .ok vals)
    ∧ (∀ cell ∈ d.cells, ∀ j, funcOfType cell.cell_type = none →
        genCell d.attributes (σ j) iteration cell = .ok none) := by
  refine ⟨generate_ok_of_wf d iteration σ hwf hσ, ?_, ?_⟩
  · exact fun cell hc => lookupAttrs_ok cell (attrNames d.attributes) (hwf cell hc)
  · intro cell hc j hft
    rw [genCell_eq_noperm]
    obtain ⟨ro, hro⟩ := genCellNoPerm_ok_of_wf d.attributes (σ j) cell
      (hwf cell hc) (hσ j)
    cases ro with
    | none => exact hro
    | some r =>
      obtain ⟨-, hfn⟩ := genCellNoPerm_ok_some d.attributes (σ j) cell r hro
      rw [hft] at hfn
      exact absurd hfn (by simp)

/-- Witness for C3 on the concrete example library. -/
theorem spec_c3_witness :
    (∃ out, generate_random_genlib dEx 0 sigmaId = .ok out)
    ∧ (∀ cell ∈ dEx.cells, ∃ vals, cellAttrValues dEx.attributes cell = .ok vals)
    ∧ (∀ cell ∈ dEx.cells, ∀ j, funcOfType cell.cell_type = none →
        genCell dEx.attributes (sigmaId j) 0 cell = .ok none) :=
  spec_c3 dEx 0 sigmaId (by decide) (fun j l => List.Perm.refl l)

/-- C4 counterexample: with the cost program exiting zero and the result file
reading `cost = abc`, `float` parsing fails; `estimate_cost` raises
`ValueError`, and the run crashes (the exception propagates past the loop,
the best/elapsed report of a normal end is lost) instead of skipping just
that iteration — refuting the claim that every cost-bridge failure mode only
skips the iteration. -/
theorem spec_c4_cex :
    estimate_cost envParseBad = .error .valueError
    ∧ estimate_cost envMissingFile = .error .fileNotFound
    ∧ mainRun true dEx sigmaIdRun [envParseBad] none =
        ⟨initSlot, .crashed .valueError, false, false, true⟩ :=
  ⟨by decide, by decide, mainRun_envParseBad⟩

/-- C4 amended: of the four cost-bridge failure modes, a non-zero cost-program
exit and a first line missing the `cost = ` marker return `None` and only skip
the iteration (the best slot is untouched and the loop continues), while a
missing output file raises `FileNotFoundError` and a float-parse failure
raises `ValueError`; those exceptions are not caught and end the whole run as
a crash. -/
theorem spec_c4 :
    (∀ e : IterEnv, e.costExit0 = false → estimate_cost e = .ok none)
    ∧ (∀ e : IterEnv, e.costExit0 = true → e.costFile = none →
        estimate_cost e = .error .fileNotFound)
    ∧ (∀ (e : IterEnv) (raw : List Char), e.costExit0 = true → e.costFile = some raw →
        containsSub costMarker (trimChars raw) = false → estimate_cost e = .ok none)
    ∧ (∀ (d : LibData) (σi : ℕ → List ℚ → List ℚ) (i : ℕ) (e : IterEnv)
        (slot : BestSlot) (g : List GateRecord),
        generate_random_genlib d i σi = .ok g → estimate_cost e = .ok none →
        iterStep d σi i e slot = .ok slot)
    ∧ (∀ (d : LibData) (σ : ℕ → ℕ → List ℚ → List ℚ) (e : IterEnv)
        (rest : List IterEnv) (i : ℕ) (alarm : Option ℕ) (slot : BestSlot)
        (ex : PyExc), alarmFires alarm i = false →
        iterStep d (σ i) i e slot = .error ex →
        runLoop d σ (e :: rest) i alarm slot = (slot, .crashed ex)) := by
  refine ⟨?_, ?_, ?_, ?_, ?_⟩
  · intro e h
    unfold estimate_cost
    simp [h]
  · intro e h1 h2
    unfold estimate_cost
    simp [h1, h2]
  · intro e raw h1 h2 h3
    unfold estimate_cost
    simp [h1, h2, h3]
  · intro d σi i e slot g hg hest
    unfold iterStep
    rw [hg]
    exact iterStepPost_skip e i slot (Or.inr (Or.inr hest))
  · exact fun d σ e rest i alarm slot ex hal hstep =>
      runLoop_cons_err d σ e rest i alarm slot ex hal hstep

/-- Witness for C4 amended: concrete instances of the skip modes and of the
crash propagation. -/
theorem spec_c4_witness :
    estimate_cost envExitBad = .ok none
    ∧ estimate_cost envNoMarker = .ok none
    ∧ runLoop dEx sigmaIdRun [envParseBad] 0 none initSlot =
        (initSlot, .crashed .valueError) :=
  ⟨spec_c4.1 envExitBad rfl,
   spec_c4.2.2.1 envNoMarker "hello".toList rfl rfl (by decide),
   spec_c4.2.2.2.2 dEx sigmaIdRun envParseBad [] 0 none initSlot .valueError rfl
     iterStep_envParseBad⟩

/-- C5 counterexample: generation is not a function of the library description
and the iteration index alone. Both oracles below satisfy the `random.shuffle`
contract (they return rearrangements), yet on the same description and the
same iteration index they produce different genlib files, refuting the claimed
determinism. -/
theorem spec_c5_cex :
    IsShuffle sigmaId ∧ IsShuffle sigmaRev
    ∧ generate_random_genlib dEx 0 sigmaId ≠ generate_random_genlib dEx 0 sigmaRev := by
  refine ⟨fun j l => List.Perm.refl l, fun j l => List.reverse_perm l, ?_⟩
  rw [generate_eq_noperm, generate_eq_noperm]
  decide

/-- C5 amended: generation is deterministic only relative to the ambient
random-shuffle outcomes: holding the shuffle oracle fixed, two runs agree for
any two iteration indices (the index influences nothing but the discarded
permutation), while runs under different shuffle outcomes may differ on the
same description and index. -/
theorem spec_c5 (d : LibData) (σ : ℕ → List ℚ → List ℚ) (i j : ℕ) :
    generate_random_genlib d i σ = generate_random_genlib d j σ := by
  rw [generate_eq_noperm, generate_eq_noperm]

/-- C6: the permutation selected at position `iteration % len(all_permutations)`
is computed but has no effect: generation coincides with the variant that
skips the permutation selection entirely and assigns the seven slots from the
independent random shuffle of the original padded list. -/
theorem spec_c6 (d : LibData) (iteration : ℕ) (σ : ℕ → List ℚ → List ℚ) :
    generate_random_genlib d iteration σ = generate_random_genlib_noperm d σ :=
  generate_eq_noperm d iteration σ

/-- C7: a cell declaring fewer than seven numeric attribute values is padded
to exactly seven: the declared values are kept as the prefix, in declaration
order, and the tail is filled with the neutral value 1.0. -/
theorem spec_c7 (attributes : List String) (cell : Cell) (vals : List ℚ)
    (_hv : cellAttrValues attributes cell = .ok vals)
    (hlt : vals.length < num_required_attributes) :
    (padTo num_required_attributes vals).length = num_required_attributes
    ∧ (padTo num_required_attributes vals).take vals.length = vals
    ∧ (padTo num_required_attributes vals).drop vals.length =
        List.replicate (num_required_attributes - vals.length) 1 := by
  refine ⟨?_, ?_, ?_⟩
  · simp only [padTo, List.length_append, List.length_replicate]
    omega
  · simp [padTo, List.take_left]
  · simp [padTo, List.drop_left]

/-- Witness for C7 on the concrete two-attribute cell. -/
theorem spec_c7_witness :
    (padTo num_required_attributes [2, 3]).length = num_required_attributes
    ∧ (padTo num_required_attributes [2, 3]).take ([2, 3] : List ℚ).length = [2, 3]
    ∧ (padTo num_required_attributes [2, 3]).drop ([2, 3] : List ℚ).length =
        List.replicate (num_required_attributes - ([2, 3] : List ℚ).length) 1 :=
  spec_c7 dEx.attributes cellEx1 [2, 3] (by decide) (by decide)

/-- C8: every emitted record carries an ordered tuple of exactly seven numeric
values, bound positionally to area, rise-block-delay, fall-block-delay,
rise-fanout-delay, fall-fanout-delay, input-load and max-load: the tuple is
the first seven entries of the shuffled padded attribute list, for cells of
any declared attribute count (also more than seven). -/
theorem spec_c8 (attributes : List String) (f : List ℚ → List ℚ) (iteration : ℕ)
    (cell : Cell) (r : GateRecord) (hf : IsShuffleFn f)
    (h : genCell attributes f iteration cell = .ok (some r)) :
    (params r).length = 7
    ∧ ∃ vals, cellAttrValues attributes cell = .ok vals
        ∧ params r = (f (padTo num_required_attributes vals)).take 7 := by
  rw [genCell_eq_noperm] at h
  cases hv : cellAttrValues attributes cell with
  | error ex =>
    exact absurd h (by simp [genCellNoPerm, hv])
  | ok vals =>
    have hlen : 7 ≤ (f (padTo num_required_attributes vals)).length := by
      rw [(hf (padTo num_required_attributes vals)).length_eq]
      exact le_length_padTo _ _
    obtain ⟨a, b, c, d, e, g, k, t, hshuf⟩ := exists_seven_cons _ hlen
    rw [genCellNoPerm_eval attributes f cell vals a b c d e g k t hv hshuf] at h
    cases hft : funcOfType cell.cell_type with
    | none => rw [hft] at h; simp at h
    | some fn =>
      rw [hft] at h
      simp only [Except.ok.injEq, Option.some.injEq] at h
      subst h
      exact ⟨rfl, vals, rfl, by simp [params, hshuf]⟩

/-- Witness for C8 on a cell with eight declared attributes. -/
theorem spec_c8_witness :
    (params ⟨"G8", 1, "Y=A+B", 6, 7, 2, 4, 3, 5⟩).length = 7
    ∧ ∃ vals, cellAttrValues ["a1", "a2", "a3", "a4", "a5", "a6", "a7", "a8"] cellEx8 =
          .ok vals
        ∧ params ⟨"G8", 1, "Y=A+B", 6, 7, 2, 4, 3, 5⟩ =
            ((fun l => l) (padTo num_required_attributes vals)).take 7 :=
  spec_c8 ["a1", "a2", "a3", "a4", "a5", "a6", "a7", "a8"] (fun l => l) 0 cellEx8
    ⟨"G8", 1, "Y=A+B", 6, 7, 2, 4, 3, 5⟩ (fun l => List.Perm.refl l)
    (by rw [genCell_eq_noperm]; decide)

/-- C9: an emitted candidate library has at most one record per declared cell:
its record count equals the number of cells with a recognized type (hence is
at most the cell count), every record is a two-line record traceable to a
declared cell with a recognized type, and cells whose type lies outside the
fixed table contribute no record. -/
theorem spec_c9 (d : LibData) (iteration : ℕ) (σ : ℕ → List ℚ → List ℚ)
    (out : List GateRecord)
    (h : generate_random_genlib d iteration σ = .ok out) :
    out.length ≤ d.cells.length
    ∧ out.length = (d.cells.filter (fun c => (funcOfType c.cell_type).isSome)).length
    ∧ (∀ r ∈ out, ∃ cell ∈ d.cells, r.gate_name = cell.cell_name
        ∧ (funcOfType cell.cell_type).isSome = true)
    ∧ (∀ r ∈ out, (recordLines r).length = 2) := by
  rw [generate_eq_noperm] at h
  obtain ⟨hlen, hmem⟩ := genCellsNoPerm_spec d.attributes σ d.cells 0 out h
  exact ⟨by rw [hlen]; exact List.length_filter_le _ _, hlen, hmem, fun r _ => rfl⟩

/-- Witness for C9 on the concrete one-cell library. -/
theorem spec_c9_witness :
    ([⟨"G1", 2, "Y=A*B", 1, 1, 3, 1, 1, 1⟩] : List GateRecord).length ≤ dEx.cells.length
    ∧ ([⟨"G1", 2, "Y=A*B", 1, 1, 3, 1, 1, 1⟩] : List GateRecord).length =
        (dEx.cells.filter (fun c => (funcOfType c.cell_type).isSome)).length
    ∧ (∀ r ∈ ([⟨"G1", 2, "Y=A*B", 1, 1, 3, 1, 1, 1⟩] : List GateRecord),
        ∃ cell ∈ dEx.cells, r.gate_name = cell.cell_name
          ∧ (funcOfType cell.cell_type).isSome = true)
    ∧ (∀ r ∈ ([⟨"G1", 2, "Y=A*B", 1, 1, 3, 1, 1, 1⟩] : List GateRecord),
        (recordLines r).length = 2) :=
  spec_c9 dEx 0 (sigmaIdRun 0) [⟨"G1", 2, "Y=A*B", 1, 1, 3, 1, 1, 1⟩] generate_dEx_id

/-- C10 counterexample: a run whose every iteration fails in cost evaluation
(the cost program exits zero but its output file reads `cost = abc`, a
float-parse failure — an evaluation failure for that iteration per the spec)
does leave the best slot at its initial state, but the run ends as a crash
from the uncaught `ValueError` and the best-report lines are never printed —
refuting the claim's "the run still terminates and reports". -/
theorem spec_c10_cex :
    envFails envParseBad
    ∧ (mainRun true dEx sigmaIdRun [envParseBad] none).slot = initSlot
    ∧ (mainRun true dEx sigmaIdRun [envParseBad] none).endKind = .crashed .valueError
    ∧ (mainRun true dEx sigmaIdRun [envParseBad] none).bestReported = false :=
  ⟨Or.inr ⟨.valueError, by decide⟩,
   by rw [mainRun_envParseBad],
   by rw [mainRun_envParseBad],
   by rw [mainRun_envParseBad]⟩

/-- C10 amended: no per-iteration failure ever mutates the best-result state.
When every iteration fails (mapping non-zero exit, conversion non-zero exit,
or any cost-evaluation failure), the best slot always remains at its initial
state — infinite cost, both caller-visible artifact paths untouched — and the
elapsed time is still reported; but the run terminates normally and reports
the best result exactly when no failure raises: if every iteration fails
through a handled skip path the run ends normally and reports, while a
raising evaluation failure (float-parse failure, missing output file) ends
the run as a crash without the best report. -/
theorem spec_c10 :
    (∀ (d : LibData) (σ : ℕ → ℕ → List ℚ → List ℚ) (envs : List IterEnv),
        WellFormed d → IsShuffleRun σ → (∀ e ∈ envs, envSkips e) →
        (mainRun true d σ envs none).slot = initSlot
        ∧ (mainRun true d σ envs none).endKind = .normal
        ∧ (mainRun true d σ envs none).bestReported = true
        ∧ (mainRun true d σ envs none).elapsedReported = true)
    ∧ (∀ (d : LibData) (σ : ℕ → ℕ → List ℚ → List ℚ) (envs : List IterEnv)
        (alarm : Option ℕ),
        WellFormed d → IsShuffleRun σ → (∀ e ∈ envs, envFails e) →
        (mainRun true d σ envs alarm).slot = initSlot
        ∧ (mainRun true d σ envs alarm).elapsedReported = true
        ∧ ((mainRun true d σ envs alarm).bestReported = true ↔
            (mainRun true d σ envs alarm).endKind = .normal)) := by
  constructor
  · intro d σ envs hwf hσ hfail
    have hloop := runLoop_all_skip d σ hwf hσ (envs.take num_iterations) 0 initSlot
      (fun e he => hfail e (List.take_subset _ _ he))
    rw [mainRun_of_done d σ envs none initSlot hloop]
    exact ⟨rfl, rfl, rfl, rfl⟩
  · intro d σ envs alarm hwf hσ hfail
    refine ⟨?_, (mainRun_report true d σ envs alarm).1,
      (mainRun_report true d σ envs alarm).2⟩
    rw [mainRun_slot d σ envs alarm]
    exact runLoop_all_fail d σ hwf hσ (envs.take num_iterations) 0 alarm initSlot
      (fun e he => hfail e (List.take_subset _ _ he))

/-- Witness for C10 amended: a concrete all-skip run (three iterations failing
in the three handled ways) that ends normally with the slot untouched, and a
concrete all-fail run (one raising evaluation failure) with the slot likewise
untouched and the best report withheld. -/
theorem spec_c10_witness :
    ((mainRun true dEx sigmaIdRun [envAbcFail, envExitBad, envNoMarker] none).slot =
          initSlot
      ∧ (mainRun true dEx sigmaIdRun [envAbcFail, envExitBad, envNoMarker] none).endKind =
          .normal
      ∧ (mainRun true dEx sigmaIdRun [envAbcFail, envExitBad, envNoMarker] none).bestReported =
          true
      ∧ (mainRun true dEx sigmaIdRun [envAbcFail, envExitBad, envNoMarker] none).elapsedReported =
          true)
    ∧ ((mainRun true dEx sigmaIdRun [envParseBad] none).slot = initSlot
      ∧ (mainRun true dEx sigmaIdRun [envParseBad] none).elapsedReported = true
      ∧ ((mainRun true dEx sigmaIdRun [envParseBad] none).bestReported = true ↔
          (mainRun true dEx sigmaIdRun [envParseBad] none).endKind = .normal)) :=
  ⟨spec_c10.1 dEx sigmaIdRun [envAbcFail, envExitBad, envNoMarker] (by decide)
      (fun i j l => List.Perm.refl l) (by decide),
   spec_c10.2 dEx sigmaIdRun [envParseBad] none (by decide)
      (fun i j l => List.Perm.refl l)
      (fun e he => by
        rw [List.mem_singleton] at he
        subst he
        exact Or.inr ⟨.valueError, by decide⟩)⟩

end CadOpt
